import Mathlib

/-!
Shallow embedding of `create_COVIDx_CT.ipynb`, the driver notebook of the
COVIDx-CT dataset constructor, together with proofs about its behavior.

The notebook has three phases relevant here:
* cells 5-17: the manifest aggregation driver, which invokes each source
  processor in a fixed order and extends the global `filenames`/`classes`
  lists with the processor's outputs; the MosMedData processors run only
  when the dataset version tag ends in the letter `B`;
* cell 18: the image-count printing cell;
* cell 20: the split verifier, which globs the split files for the requested
  version (with a fallback to the base `A` variant when not all three
  partitions are found), then checks each referenced filename for existence
  in the output directory.
-/

/-! ## Python string primitives used by the notebook -/

/-- Characters treated as whitespace by Python's no-argument `str.split()`. -/
def pyIsSpace (c : Char) : Bool :=
  c == ' ' || c == '\t' || c == '\n' || c == '\x0b' || c == '\x0c' || c == '\r'

/-- Helper for `pySplit`: walk the characters, accumulating the current
token in reverse; whitespace ends the current token (if any), and empty
tokens are never produced. -/
def pySplitAux : List Char → List Char → List String
  | [], cur => if cur.isEmpty then [] else [String.mk cur.reverse]
  | c :: rest, cur =>
    if pyIsSpace c then
      if cur.isEmpty then pySplitAux rest []
      else String.mk cur.reverse :: pySplitAux rest []
    else pySplitAux rest (c :: cur)

/-- Python `s.split()` with no arguments: split on runs of whitespace and
drop empty tokens. -/
def pySplit (s : String) : List String :=
  pySplitAux s.data []

/-- Python `s.strip('\n')`: remove leading and trailing newline characters. -/
def pyStripNL (s : String) : String :=
  String.mk (((s.data.dropWhile (fun c => c == '\n')).reverse.dropWhile
    (fun c => c == '\n')).reverse)

/-- Python `s[-1]` as an `Option` (Python raises `IndexError` on `""`). -/
def pyLastChar (s : String) : Option Char :=
  s.data.getLast?

/-- Whether `s` ends with the literal suffix `t` (the effect of the glob
pattern `*_COVIDx_CT-<v>.txt` on a basename). -/
def strEndsWith (s t : String) : Bool :=
  t.data.isSuffixOf s.data

/-! ## Data model of the verifier's file system view (cell 20) -/

/-- One split file: its basename (the glob results are paths inside
`splits/v<major>/`; only the basename matters to the logic) and its lines as
returned by `readlines` (with or without the trailing newline, which
`strip('\n')` removes before tokenizing). -/
structure SplitFile where
  name : String
  lines : List String
  deriving DecidableEq, Repr

/-- The file-system state the verifier reads: the files present in the
`splits/v<major>/` directory and the set of filenames present in the output
directory `OUTPUT_DIR` (existence of `os.path.join(OUTPUT_DIR, fname)` is
membership of `fname` here). -/
structure FS where
  splitFiles : List SplitFile
  outputFiles : List String
  deriving Repr

/-- The glob `glob.glob(os.path.join('splits/v' + version[0],
'*_COVIDx_CT-<v>.txt'))`: within the directory, a basename matches the
pattern exactly when it ends with the literal suffix. -/
def globMatch (fs : FS) (v : String) : List SplitFile :=
  fs.splitFiles.filter (fun f => strEndsWith f.name ("_COVIDx_CT-" ++ v ++ ".txt"))

/-- Python `os.path.basename(split_file).split('_')[0]`: the first component
of a `'_'`-split is the longest prefix containing no underscore. -/
def partitionOf (name : String) : String :=
  String.mk (name.data.takeWhile (fun c => c != '_'))

/-- Cell 20, split-file discovery: glob the requested version's split files,
raise `ValueError` when none are found, and when the count differs from 3
supplement the partitions not already present from the base `A` variant of
the same major version (`a_var = DATASET_VERSION[0] + 'A'`). -/
def discoverSplitFiles (version : String) (fs : FS) : Except String (List SplitFile) :=
  let split_files := globMatch fs version
  if split_files.length = 0 then
    .error ("Split files for COVIDx CT-" ++ version ++ " not found")
  else if split_files.length ≠ 3 then
    let a_var := String.mk (version.data.take 1) ++ "A"
    let existing_splits := split_files.map (fun f => partitionOf f.name)
    let split_files_a := (globMatch fs a_var).filter
      (fun f => !(existing_splits.contains (partitionOf f.name)))
    .ok (split_files ++ split_files_a)
  else
    .ok split_files

/-! ## The per-line verification loop (cell 20) -/

/-- The tokens of one split-file line: `line.strip('\n').split()`. -/
def lineTok (line : String) : List String :=
  pySplit (pyStripNL line)

/-- The filename a line refers to: its first whitespace-separated token. -/
def fnameOf (line : String) : String :=
  (lineTok line).headD ""

/-- Whether the file a line refers to exists in the output directory. -/
def present (out : List String) (line : String) : Bool :=
  out.contains (fnameOf line)

/-- The mutable state of the verification loop: `count` and `total`
tallies, the missing filenames printed via `print('Missing', fname)` in
encounter order, and the `incomplete` flag. -/
structure VerifyResult where
  count : Nat
  total : Nat
  missing : List String
  incomplete : Bool
  deriving DecidableEq, Repr

/-- The loop state before the first line: `count = 0`, `total = 0`,
`incomplete = False`, nothing printed. -/
def initAcc : VerifyResult := ⟨0, 0, [], false⟩

/-- The inner loop of cell 20 over the lines of one split file.  Python
destructures `fname, cls = line.strip('\n').split()[:2]`, which raises
`ValueError` when the line has fewer than two tokens; otherwise it
increments `total`, and either increments `count` (file exists) or prints
the missing filename and sets `incomplete`. -/
def checkLines (out : List String) : List String → VerifyResult → Except String VerifyResult
  | [], acc => .ok acc
  | line :: rest, acc =>
    match lineTok line with
    | fname :: _cls :: _ =>
      if out.contains fname then
        checkLines out rest
          { acc with count := acc.count + 1, total := acc.total + 1 }
      else
        checkLines out rest
          { acc with total := acc.total + 1,
                     missing := acc.missing ++ [fname],
                     incomplete := true }
    | _ => .error "ValueError: not enough values to unpack"

/-- The outer loop of cell 20 over the discovered split files. -/
def checkFiles (out : List String) : List SplitFile → VerifyResult → Except String VerifyResult
  | [], acc => .ok acc
  | f :: rest, acc =>
    match checkLines out f.lines acc with
    | .ok acc1 => checkFiles out rest acc1
    | .error e => .error e

/-- All lines of all discovered split files, in iteration order. -/
def allLines (files : List SplitFile) : List String :=
  (files.map SplitFile.lines).flatten

/-- The final line printed by cell 20. -/
def finalReport (r : VerifyResult) : String :=
  if r.incomplete then
    toString r.count ++ "/" ++ toString r.total ++
      " files are missing, dataset is incomplete!"
  else
    toString r.count ++ "/" ++ toString r.total ++
      " files created, dataset successfully constructed!"

/-- The whole of cell 20: discover the split files (possibly raising
`ValueError`), then run the verification loop from the initial state. -/
def verifySplits (version : String) (fs : FS) : Except String VerifyResult := do
  let files ← discoverSplitFiles version fs
  checkFiles fs.outputFiles files initAcc

/-! ## The manifest aggregation driver (cells 5-17) -/

/-- The pair of sequences a source processor returns: `fnames, cls = ...`.
The processor modules themselves live outside the notebook; the driver only
extends the global lists with whatever they return, so they enter the model
as parameters. -/
structure ProcResult where
  fnames : List String
  classes : List Nat
  deriving DecidableEq, Repr

/-- One driver cell's accumulation step:
`filenames.extend(fnames); classes.extend(cls)`. -/
def extendBoth (acc : List String × List Nat) (p : ProcResult) :
    List String × List Nat :=
  (acc.1 ++ p.fnames, acc.2 ++ p.classes)

/-- Cells 5-17: start from empty `filenames`/`classes` lists, run the fixed
sequence of source processors (given here by their results, in invocation
order), and run the two MosMedData processors exactly when
`DATASET_VERSION[-1] == 'B'`. -/
def runDriver (version : String) (procs : List ProcResult)
    (mosmedSeg mosmedUnseg : ProcResult) : List String × List Nat :=
  let base := procs.foldl extendBoth ([], [])
  if pyLastChar version = some 'B' then
    extendBoth (extendBoth base mosmedSeg) mosmedUnseg
  else
    base

/-! ## The image-count printing cell (cell 18) -/

/-- Modelled from the spec: `CLASS_MAP` is imported from
`dataset_construction/utils.py`, which is not part of the provided source;
the spec fixes the canonical class enumeration
{Normal: 0, Pneumonia: 1, COVID-19: 2}. -/
def CLASS_MAP : List (String × Nat) :=
  [("Normal", 0), ("Pneumonia", 1), ("COVID-19", 2)]

/-- Python `np.unique(classes, return_counts=True)`: the sorted distinct
values and their parallel occurrence counts. -/
def npUnique (xs : List Nat) : List Nat × List Nat :=
  let u := List.insertionSort (· ≤ ·) xs.dedup
  (u, u.map (fun v => xs.count v))

/-- Indexing a plain Python list with a numpy boolean array of size 3, as
`counts[uniq_classes == cls]` does after `counts` has been rebound to the
empty list `[]`, raises a `TypeError`: `list.__getitem__` cannot convert a
non-scalar array to an index. -/
def pyListArrayIndex (xs : List Nat) (mask : List Bool) : Except String (List Nat) :=
  let _ := xs
  let _ := mask
  .error "TypeError: only integer scalar arrays can be converted to a scalar index"

/-- Cell 18 as written: compute `np.unique`, then rebind `uniq_classes` to
`np.arange(3)` and `counts` to the empty list `[]`, then for each
`(name, cls)` in `CLASS_MAP` print `counts[uniq_classes == cls]`.  The
result is the list of (class name, printed selection) pairs, or the first
exception raised. -/
def printImageCounts (classes : List Nat) : Except String (List (String × List Nat)) :=
  let _discarded := npUnique classes
  let uniq_classes : List Nat := List.range 3
  let counts : List Nat := []
  CLASS_MAP.foldlM
    (fun acc nc => do
      let sel ← pyListArrayIndex counts (uniq_classes.map (fun u => u == nc.2))
      pure (acc ++ [(nc.1, sel)]))
    []

/-- Modelled from the spec: the intended count-by-label semantics of the
image-count report (spec sections 4.3 and 8) — for each class name in the
canonical enumeration, the number of occurrences of its label in the
accumulated classes list. -/
def classCounts (classes : List Nat) : List (String × Nat) :=
  CLASS_MAP.map (fun nc => (nc.1, classes.count nc.2))

/-! ## Concrete example data used in witnesses -/

/-- A splits directory with no files matching version 3A. -/
def exampleFSEmpty : FS := ⟨[⟨"train_COVIDx_CT-2A.txt", []⟩], ["a.png"]⟩

/-- A splits directory holding only 2 of the 3 partitions for variant 3B,
plus all three partitions for the base variant 3A. -/
def exampleFSFallback : FS :=
  ⟨[⟨"train_COVIDx_CT-3B.txt", []⟩, ⟨"val_COVIDx_CT-3B.txt", []⟩,
    ⟨"train_COVIDx_CT-3A.txt", []⟩, ⟨"val_COVIDx_CT-3A.txt", []⟩,
    ⟨"test_COVIDx_CT-3A.txt", []⟩], []⟩

/-- The spec's verifier scenario: output directory {a.png, b.png}. -/
def exampleOut : List String := ["a.png", "b.png"]

/-- The spec's verifier scenario: a split file listing a.png and c.png. -/
def exampleFiles : List SplitFile :=
  [⟨"test_COVIDx_CT-3A.txt", ["a.png 1", "c.png 2"]⟩]

/-! ## Characterization of the verification loop -/

/-- When every line has at least two tokens, the inner loop of cell 20
adds, to the incoming state, one `total` per line, one `count` per line
whose filename is present, the missing filenames in encounter order, and
sets `incomplete` exactly when some filename is absent. -/
theorem checkLines_char (out : List String) (lines : List String) (acc : VerifyResult)
    (h : ∀ l ∈ lines, 2 ≤ (lineTok l).length) :
    checkLines out lines acc = .ok
      { count := acc.count + (lines.filter (present out)).length
      , total := acc.total + lines.length
      , missing := acc.missing ++ (lines.filter (fun l => !(present out l))).map fnameOf
      , incomplete := acc.incomplete || lines.any (fun l => !(present out l)) } := by
  induction lines generalizing acc with
  | nil => simp [checkLines]
  | cons line rest ih =>
    have h1 : 2 ≤ (lineTok line).length := h line (by simp)
    have hrest : ∀ l ∈ rest, 2 ≤ (lineTok l).length := fun l hl => h l (by simp [hl])
    obtain ⟨a, b, ts, hab⟩ : ∃ a b ts, lineTok line = a :: b :: ts := by
      match hx : lineTok line with
      | [] => rw [hx] at h1; simp at h1
      | [a] => rw [hx] at h1; simp at h1
      | a :: b :: ts => exact ⟨a, b, ts, rfl⟩
    have hf : fnameOf line = a := by simp [fnameOf, hab]
    rw [checkLines, hab]
    dsimp only
    by_cases hc : out.contains a
    · rw [if_pos hc]
      rw [ih _ hrest]
      have hp : present out line = true := by
        simpa [present, hf] using hc
      simp [hp, Nat.add_assoc, Nat.add_comm 1]
    · rw [if_neg hc]
      rw [ih _ hrest]
      have hp : present out line = false := by
        simp only [present, hf]
        exact Bool.not_eq_true _ ▸ eq_false_of_ne_true hc
      simp [hp, hf, Nat.add_assoc, Nat.add_comm 1]

/-- The outer loop of cell 20 behaves on the concatenation of all lines of
all discovered split files exactly as the inner loop does. -/
theorem checkFiles_char (out : List String) (files : List SplitFile) (acc : VerifyResult)
    (h : ∀ l ∈ allLines files, 2 ≤ (lineTok l).length) :
    checkFiles out files acc = .ok
      { count := acc.count + ((allLines files).filter (present out)).length
      , total := acc.total + (allLines files).length
      , missing := acc.missing ++ ((allLines files).filter (fun l => !(present out l))).map fnameOf
      , incomplete := acc.incomplete || (allLines files).any (fun l => !(present out l)) } := by
  induction files generalizing acc with
  | nil => simp [checkFiles, allLines]
  | cons f rest ih =>
    have hf : ∀ l ∈ f.lines, 2 ≤ (lineTok l).length := by
      intro l hl
      exact h l (by simp [allLines, hl])
    have hrest : ∀ l ∈ allLines rest, 2 ≤ (lineTok l).length := by
      intro l hl
      apply h l
      simp only [allLines, List.map_cons, List.flatten_cons, List.mem_append]
      right
      simpa [allLines] using hl
    rw [checkFiles, checkLines_char out f.lines acc hf]
    dsimp only
    rw [ih _ hrest]
    simp [allLines, List.filter_append, Bool.or_assoc, Nat.add_assoc]

/-- Folding the per-cell accumulation step over a list of processor results
concatenates their filename and class sequences onto the running lists. -/
theorem foldl_extendBoth (procs : List ProcResult) (a : List String) (b : List Nat) :
    procs.foldl extendBoth (a, b) =
      (a ++ (procs.map ProcResult.fnames).flatten,
       b ++ (procs.map ProcResult.classes).flatten) := by
  induction procs generalizing a b with
  | nil => simp
  | cons p rest ih => simp [extendBoth, ih, List.append_assoc]

/-- A line with fewer than two tokens makes the inner loop of cell 20 raise
`ValueError` at that line, whatever lines follow it. -/
theorem checkLines_error_of_short (out : List String) (pre post : List String)
    (line : String) (acc : VerifyResult)
    (hpre : ∀ l ∈ pre, 2 ≤ (lineTok l).length)
    (h : (lineTok line).length < 2) :
    checkLines out (pre ++ line :: post) acc =
      .error "ValueError: not enough values to unpack" := by
  induction pre generalizing acc with
  | nil =>
    rw [List.nil_append, checkLines]
    match hx : lineTok line with
    | [] => rfl
    | [a] => rfl
    | a :: b :: ts => simp only [hx, List.length_cons] at h; omega
  | cons p rest ih =>
    have h1 : 2 ≤ (lineTok p).length := hpre p (by simp)
    have hrest : ∀ l ∈ rest, 2 ≤ (lineTok l).length := fun l hl => hpre l (by simp [hl])
    obtain ⟨a, b, ts, hab⟩ : ∃ a b ts, lineTok p = a :: b :: ts := by
      match hx : lineTok p with
      | [] => rw [hx] at h1; simp at h1
      | [a] => rw [hx] at h1; simp at h1
      | a :: b :: ts => exact ⟨a, b, ts, rfl⟩
    rw [List.cons_append, checkLines, hab]
    dsimp only
    by_cases hc : out.contains a
    · rw [if_pos hc, ih _ hrest]
    · rw [if_neg hc, ih _ hrest]

/-! ## Claim theorems -/

/-- C1: cell 18 does not report per-class occurrence counts.  After
computing `np.unique`, the cell rebinds `counts` to the empty list and
`uniq_classes` to `np.arange(3)`, so indexing `counts[uniq_classes == cls]`
raises a `TypeError` instead of printing the counts; on the classes list
[0, 0, 2, 1] the intended count-by-label semantics would report Normal=2,
Pneumonia=1, COVID-19=1. -/
theorem image_count_cell_defect :
    printImageCounts [0, 0, 2, 1] =
      .error "TypeError: only integer scalar arrays can be converted to a scalar index" ∧
    classCounts [0, 0, 2, 1] = [("Normal", 2), ("Pneumonia", 1), ("COVID-19", 1)] :=
  ⟨rfl, by decide⟩

/-- C2: when the glob for the requested version's split files returns zero
files, the verifier raises `ValueError` before any per-line existence
checking: the whole of cell 20 evaluates to that error, producing no
tallies and checking no files. -/
theorem zero_split_files_fatal (fs : FS) (version : String)
    (h : globMatch fs version = []) :
    verifySplits version fs =
      .error ("Split files for COVIDx CT-" ++ version ++ " not found") := by
  unfold verifySplits discoverSplitFiles
  simp only [h]
  rfl

/-- Witness for C2 at a splits directory holding no files for version 3A. -/
theorem zero_split_files_fatal_witness :
    globMatch exampleFSEmpty "3A" = [] ∧
    verifySplits "3A" exampleFSEmpty =
      .error ("Split files for COVIDx CT-" ++ "3A" ++ " not found") :=
  ⟨by decide, zero_split_files_fatal exampleFSEmpty "3A" (by decide)⟩

/-- C3: when the requested version's glob finds at least one but not
exactly three split files, discovery succeeds (no error) with the found
files kept, followed by exactly those base-`A`-variant files (same major
version, the first character of the tag) whose partition name is not
among the partitions already found. -/
theorem variant_fallback (fs : FS) (version : String)
    (h0 : globMatch fs version ≠ [])
    (h3 : (globMatch fs version).length ≠ 3) :
    discoverSplitFiles version fs = .ok
      (globMatch fs version ++
        (globMatch fs (String.mk (version.data.take 1) ++ "A")).filter
          (fun f => !(((globMatch fs version).map (fun g => partitionOf g.name)).contains
            (partitionOf f.name)))) ∧
    (∀ f ∈ (globMatch fs (String.mk (version.data.take 1) ++ "A")).filter
          (fun f => !(((globMatch fs version).map (fun g => partitionOf g.name)).contains
            (partitionOf f.name))),
      ¬ (partitionOf f.name) ∈ (globMatch fs version).map (fun g => partitionOf g.name)) := by
  have hlen : ¬ (globMatch fs version).length = 0 := by
    simpa [List.length_eq_zero] using h0
  constructor
  · unfold discoverSplitFiles
    rw [if_neg hlen, if_pos h3]
  · intro f hf
    rw [List.mem_filter] at hf
    intro hmem
    have hcontains := hf.2
    rw [Bool.not_eq_true'] at hcontains
    simp at hcontains
    obtain ⟨g, hg, hge⟩ := List.mem_map.mp hmem
    exact hcontains g hg hge

/-- Witness for C3: only train and val exist for 3B; discovery keeps them
and supplements test from the 3A files. -/
theorem variant_fallback_witness :
    (globMatch exampleFSFallback "3B" ≠ [] ∧
      (globMatch exampleFSFallback "3B").length ≠ 3) ∧
    discoverSplitFiles "3B" exampleFSFallback = .ok
      [⟨"train_COVIDx_CT-3B.txt", []⟩, ⟨"val_COVIDx_CT-3B.txt", []⟩,
       ⟨"test_COVIDx_CT-3A.txt", []⟩] :=
  ⟨⟨by decide, by decide⟩, by
    rw [(variant_fallback exampleFSFallback "3B" (by decide) (by decide)).1]
    exact congrArg Except.ok (by decide)⟩

/-- C4: with every line carrying at least two whitespace-separated tokens,
the verification loop over the discovered split files ends with `total`
the number of lines, `count` the number of lines whose first token names a
file present in the output directory, the absent filenames logged in
order, and the incomplete flag exactly when some file is absent. -/
theorem verifier_tally (out : List String) (files : List SplitFile)
    (h : ∀ l ∈ allLines files, 2 ≤ (lineTok l).length) :
    checkFiles out files initAcc = .ok
      { count := ((allLines files).filter (present out)).length
      , total := (allLines files).length
      , missing := ((allLines files).filter (fun l => !(present out l))).map fnameOf
      , incomplete := (allLines files).any (fun l => !(present out l)) } := by
  simpa [initAcc] using checkFiles_char out files initAcc h

/-- Witness for C4 at the spec scenario: output files {a.png, b.png} and
split lines "a.png 1" and "c.png 2" give count=1, total=2, c.png logged
missing and the incomplete flag set. -/
theorem verifier_tally_witness :
    (∀ l ∈ allLines exampleFiles, 2 ≤ (lineTok l).length) ∧
    checkFiles exampleOut exampleFiles initAcc = .ok ⟨1, 2, ["c.png"], true⟩ :=
  ⟨by decide, by
    rw [verifier_tally exampleOut exampleFiles (by decide)]
    exact congrArg Except.ok (by decide)⟩

/-- C5: whenever some split-referenced file is absent from the output
directory (and every line parses), the run ends incomplete and the final
report states count/total, where count is the number of listed files found
present and total the number checked: it is the string
"count/total files are missing, dataset is incomplete!". -/
theorem incomplete_report (out : List String) (files : List SplitFile)
    (h : ∀ l ∈ allLines files, 2 ≤ (lineTok l).length)
    (hmiss : ∃ l ∈ allLines files, present out l = false) :
    ∃ r, checkFiles out files initAcc = .ok r ∧
      r.incomplete = true ∧
      r.count = ((allLines files).filter (present out)).length ∧
      r.total = (allLines files).length ∧
      finalReport r = toString r.count ++ "/" ++ toString r.total ++
        " files are missing, dataset is incomplete!" := by
  have hc := checkFiles_char out files initAcc h
  simp only [initAcc, Nat.zero_add, List.nil_append, Bool.false_or] at hc
  obtain ⟨l, hl, hpl⟩ := hmiss
  have hinc : (allLines files).any (fun l => !(present out l)) = true := by
    rw [List.any_eq_true]
    exact ⟨l, hl, by simp [hpl]⟩
  refine ⟨_, hc, ?_, ?_, ?_, ?_⟩
  · simpa using hinc
  · rfl
  · rfl
  · simp [finalReport, hinc]

/-- Witness for C5: one of three listed files is absent, so the report is
incomplete with 2/3. -/
theorem incomplete_report_witness :
    ((∀ l ∈ allLines [⟨"train_COVIDx_CT-3A.txt", ["a.png 0", "b.png 1", "c.png 2"]⟩],
        2 ≤ (lineTok l).length) ∧
      (∃ l ∈ allLines [⟨"train_COVIDx_CT-3A.txt", ["a.png 0", "b.png 1", "c.png 2"]⟩],
        present ["a.png", "b.png"] l = false)) ∧
    (∃ r, checkFiles ["a.png", "b.png"]
        [⟨"train_COVIDx_CT-3A.txt", ["a.png 0", "b.png 1", "c.png 2"]⟩] initAcc = .ok r ∧
      r.incomplete = true ∧
      r.count = ((allLines [⟨"train_COVIDx_CT-3A.txt", ["a.png 0", "b.png 1", "c.png 2"]⟩]).filter
        (present ["a.png", "b.png"])).length ∧
      r.total = (allLines [⟨"train_COVIDx_CT-3A.txt", ["a.png 0", "b.png 1", "c.png 2"]⟩]).length ∧
      finalReport r = toString r.count ++ "/" ++ toString r.total ++
        " files are missing, dataset is incomplete!") :=
  ⟨⟨by decide, by decide⟩,
    incomplete_report ["a.png", "b.png"]
      [⟨"train_COVIDx_CT-3A.txt", ["a.png 0", "b.png 1", "c.png 2"]⟩]
      (by decide) (by decide)⟩

/-- C6: a missing file is non-fatal: with every line parsing and at least
one referenced file absent, the loop still returns a result (no
exception), its total counts every line of every split file, and its log
accumulates every absent filename (at least one). -/
theorem missing_nonfatal (out : List String) (files : List SplitFile)
    (h : ∀ l ∈ allLines files, 2 ≤ (lineTok l).length)
    (hmiss : ∃ l ∈ allLines files, present out l = false) :
    ∃ r, checkFiles out files initAcc = .ok r ∧
      r.total = (allLines files).length ∧
      r.missing = ((allLines files).filter (fun l => !(present out l))).map fnameOf ∧
      r.missing ≠ [] := by
  have hc := checkFiles_char out files initAcc h
  simp only [initAcc, Nat.zero_add, List.nil_append, Bool.false_or] at hc
  obtain ⟨l, hl, hpl⟩ := hmiss
  refine ⟨_, hc, rfl, rfl, ?_⟩
  have hmem : l ∈ (allLines files).filter (fun l => !(present out l)) := by
    rw [List.mem_filter]
    exact ⟨hl, by simp [hpl]⟩
  have hfmem : fnameOf l ∈ ((allLines files).filter (fun l => !(present out l))).map fnameOf :=
    List.mem_map_of_mem fnameOf hmem
  exact List.ne_nil_of_mem hfmem

/-- Witness for C6: a miss in the first split file does not stop the loop
from checking the second split file. -/
theorem missing_nonfatal_witness :
    ((∀ l ∈ allLines [⟨"train_COVIDx_CT-3A.txt", ["x.png 2", "a.png 0"]⟩,
        ⟨"val_COVIDx_CT-3A.txt", ["y.png 1"]⟩], 2 ≤ (lineTok l).length) ∧
      (∃ l ∈ allLines [⟨"train_COVIDx_CT-3A.txt", ["x.png 2", "a.png 0"]⟩,
        ⟨"val_COVIDx_CT-3A.txt", ["y.png 1"]⟩], present ["a.png", "y.png"] l = false)) ∧
    (∃ r, checkFiles ["a.png", "y.png"]
        [⟨"train_COVIDx_CT-3A.txt", ["x.png 2", "a.png 0"]⟩,
         ⟨"val_COVIDx_CT-3A.txt", ["y.png 1"]⟩] initAcc = .ok r ∧
      r.total = (allLines [⟨"train_COVIDx_CT-3A.txt", ["x.png 2", "a.png 0"]⟩,
        ⟨"val_COVIDx_CT-3A.txt", ["y.png 1"]⟩]).length ∧
      r.missing = ((allLines [⟨"train_COVIDx_CT-3A.txt", ["x.png 2", "a.png 0"]⟩,
        ⟨"val_COVIDx_CT-3A.txt", ["y.png 1"]⟩]).filter
          (fun l => !(present ["a.png", "y.png"] l))).map fnameOf ∧
      r.missing ≠ []) :=
  ⟨⟨by decide, by decide⟩,
    missing_nonfatal ["a.png", "y.png"]
      [⟨"train_COVIDx_CT-3A.txt", ["x.png 2", "a.png 0"]⟩,
       ⟨"val_COVIDx_CT-3A.txt", ["y.png 1"]⟩]
      (by decide) (by decide)⟩

/-- C7: when every listed file exists in the output directory (and every
line parses), the loop ends with count equal to total equal to the number
of listed files M, the incomplete flag unset, and the final report is
"M/M files created, dataset successfully constructed!". -/
theorem complete_report (out : List String) (files : List SplitFile)
    (h : ∀ l ∈ allLines files, 2 ≤ (lineTok l).length)
    (hall : ∀ l ∈ allLines files, present out l = true) :
    ∃ r, checkFiles out files initAcc = .ok r ∧
      r.count = (allLines files).length ∧
      r.total = (allLines files).length ∧
      r.count = r.total ∧
      r.incomplete = false ∧
      finalReport r = toString (allLines files).length ++ "/" ++
        toString (allLines files).length ++
        " files created, dataset successfully constructed!" := by
  have hc := checkFiles_char out files initAcc h
  simp only [initAcc, Nat.zero_add, List.nil_append, Bool.false_or] at hc
  have hfilter : (allLines files).filter (present out) = allLines files :=
    List.filter_eq_self.mpr hall
  have hinc : (allLines files).any (fun l => !(present out l)) = false := by
    rw [List.any_eq_false]
    intro l hl
    simp [hall l hl]
  refine ⟨_, hc, ?_, rfl, ?_, ?_, ?_⟩
  · simp [hfilter]
  · simp [hfilter]
  · simpa using hinc
  · simp [finalReport, hinc, hfilter]

/-- Witness for C7 at the spec scenario of 3 listed files, all present. -/
theorem complete_report_witness :
    ((∀ l ∈ allLines [⟨"test_COVIDx_CT-3A.txt", ["a.png 0", "b.png 1", "c.png 2"]⟩],
        2 ≤ (lineTok l).length) ∧
      (∀ l ∈ allLines [⟨"test_COVIDx_CT-3A.txt", ["a.png 0", "b.png 1", "c.png 2"]⟩],
        present ["a.png", "b.png", "c.png"] l = true)) ∧
    (∃ r, checkFiles ["a.png", "b.png", "c.png"]
        [⟨"test_COVIDx_CT-3A.txt", ["a.png 0", "b.png 1", "c.png 2"]⟩] initAcc = .ok r ∧
      r.count = (allLines [⟨"test_COVIDx_CT-3A.txt", ["a.png 0", "b.png 1", "c.png 2"]⟩]).length ∧
      r.total = (allLines [⟨"test_COVIDx_CT-3A.txt", ["a.png 0", "b.png 1", "c.png 2"]⟩]).length ∧
      r.count = r.total ∧
      r.incomplete = false ∧
      finalReport r = toString (allLines [⟨"test_COVIDx_CT-3A.txt",
          ["a.png 0", "b.png 1", "c.png 2"]⟩]).length ++ "/" ++
        toString (allLines [⟨"test_COVIDx_CT-3A.txt", ["a.png 0", "b.png 1", "c.png 2"]⟩]).length ++
        " files created, dataset successfully constructed!") :=
  ⟨⟨by decide, by decide⟩,
    complete_report ["a.png", "b.png", "c.png"]
      [⟨"test_COVIDx_CT-3A.txt", ["a.png 0", "b.png 1", "c.png 2"]⟩]
      (by decide) (by decide)⟩

/-- C8: the MosMedData processors contribute to the manifest if and only if
the dataset version tag's trailing letter is `B`: when it is, the driver's
result is the base accumulation followed by the segmented then unsegmented
MosMedData outputs; otherwise the result is exactly the base accumulation,
with MosMedData contributing nothing. -/
theorem mosmed_iff_B (version : String) (procs : List ProcResult) (ms mu : ProcResult) :
    (pyLastChar version = some 'B' →
      runDriver version procs ms mu =
        ((procs.foldl extendBoth ([], [])).1 ++ ms.fnames ++ mu.fnames,
         (procs.foldl extendBoth ([], [])).2 ++ ms.classes ++ mu.classes)) ∧
    (pyLastChar version ≠ some 'B' →
      runDriver version procs ms mu = procs.foldl extendBoth ([], [])) := by
  constructor
  · intro hb
    simp [runDriver, hb, extendBoth]
  · intro hb
    simp [runDriver, hb]

/-- Witness for C8: version 3B appends both MosMedData results; version 3A
leaves the base result untouched. -/
theorem mosmed_iff_B_witness :
    (pyLastChar "3B" = some 'B' ∧
      runDriver "3B" [⟨["x.png"], [0]⟩] ⟨["m.png"], [2]⟩ ⟨["n.png"], [2]⟩ =
        (["x.png", "m.png", "n.png"], [0, 2, 2])) ∧
    (pyLastChar "3A" ≠ some 'B' ∧
      runDriver "3A" [⟨["x.png"], [0]⟩] ⟨["m.png"], [2]⟩ ⟨["n.png"], [2]⟩ =
        (["x.png"], [0])) :=
  ⟨⟨by decide, by
      rw [(mosmed_iff_B "3B" [⟨["x.png"], [0]⟩] ⟨["m.png"], [2]⟩ ⟨["n.png"], [2]⟩).1 (by decide)]
      decide⟩,
   ⟨by decide, by
      rw [(mosmed_iff_B "3A" [⟨["x.png"], [0]⟩] ⟨["m.png"], [2]⟩ ⟨["n.png"], [2]⟩).2 (by decide)]
      decide⟩⟩

/-- C9: assuming every processor returns filename and class sequences of
equal length, the accumulated filenames and classes lists have equal
length after every prefix of processor invocations and at the end of the
run, and the final global lists are the concatenations of the
per-processor outputs in invocation order (with the MosMedData outputs
appended exactly for a trailing-`B` version). -/
theorem driver_parallel (version : String) (procs : List ProcResult) (ms mu : ProcResult)
    (hp : ∀ p ∈ procs, p.fnames.length = p.classes.length)
    (hms : ms.fnames.length = ms.classes.length)
    (hmu : mu.fnames.length = mu.classes.length) :
    (∀ k, ((procs.take k).foldl extendBoth ([], [])).1.length
        = ((procs.take k).foldl extendBoth ([], [])).2.length) ∧
    (runDriver version procs ms mu).1.length = (runDriver version procs ms mu).2.length ∧
    (runDriver version procs ms mu).1 =
      (procs.map ProcResult.fnames).flatten ++
        (if pyLastChar version = some 'B' then ms.fnames ++ mu.fnames else []) ∧
    (runDriver version procs ms mu).2 =
      (procs.map ProcResult.classes).flatten ++
        (if pyLastChar version = some 'B' then ms.classes ++ mu.classes else []) := by
  have hlen : ∀ l : List ProcResult, (∀ p ∈ l, p.fnames.length = p.classes.length) →
      ((l.map ProcResult.fnames).flatten).length = ((l.map ProcResult.classes).flatten).length := by
    intro l hl
    induction l with
    | nil => simp
    | cons p r ih =>
      simp only [List.map_cons, List.flatten_cons, List.length_append]
      rw [hl p (by simp), ih (fun q hq => hl q (by simp [hq]))]
  refine ⟨?_, ?_, ?_, ?_⟩
  · intro k
    rw [foldl_extendBoth]
    have hpk : ∀ p ∈ procs.take k, p.fnames.length = p.classes.length :=
      fun p hp2 => hp p (List.take_subset k procs hp2)
    simpa using hlen (procs.take k) hpk
  · unfold runDriver
    by_cases hb : pyLastChar version = some 'B'
    · rw [if_pos hb]
      simp only [extendBoth, foldl_extendBoth]
      simp [hlen procs hp, hms, hmu]
    · rw [if_neg hb, foldl_extendBoth]
      simpa using hlen procs hp
  · unfold runDriver
    by_cases hb : pyLastChar version = some 'B'
    · rw [if_pos hb, if_pos hb]
      simp [extendBoth, foldl_extendBoth, List.append_assoc]
    · rw [if_neg hb, if_neg hb, foldl_extendBoth]
      simp
  · unfold runDriver
    by_cases hb : pyLastChar version = some 'B'
    · rw [if_pos hb, if_pos hb]
      simp [extendBoth, foldl_extendBoth, List.append_assoc]
    · rw [if_neg hb, if_neg hb, foldl_extendBoth]
      simp

/-- Witness for C9 with two processors of equal-length outputs and a
trailing-B version. -/
theorem driver_parallel_witness :
    ((∀ p ∈ [(⟨["x.png"], [0]⟩ : ProcResult), ⟨["y.png", "z.png"], [1, 2]⟩],
        p.fnames.length = p.classes.length) ∧
      (["m.png"] : List String).length = ([2] : List Nat).length ∧
      (["n.png"] : List String).length = ([2] : List Nat).length) ∧
    ((∀ k, (([(⟨["x.png"], [0]⟩ : ProcResult), ⟨["y.png", "z.png"], [1, 2]⟩].take k).foldl
          extendBoth ([], [])).1.length
        = (([(⟨["x.png"], [0]⟩ : ProcResult), ⟨["y.png", "z.png"], [1, 2]⟩].take k).foldl
          extendBoth ([], [])).2.length) ∧
      (runDriver "3B" [⟨["x.png"], [0]⟩, ⟨["y.png", "z.png"], [1, 2]⟩]
        ⟨["m.png"], [2]⟩ ⟨["n.png"], [2]⟩).1.length =
      (runDriver "3B" [⟨["x.png"], [0]⟩, ⟨["y.png", "z.png"], [1, 2]⟩]
        ⟨["m.png"], [2]⟩ ⟨["n.png"], [2]⟩).2.length ∧
      (runDriver "3B" [⟨["x.png"], [0]⟩, ⟨["y.png", "z.png"], [1, 2]⟩]
        ⟨["m.png"], [2]⟩ ⟨["n.png"], [2]⟩).1 =
        ([[ "x.png"], ["y.png", "z.png"]].flatten ++
          (if pyLastChar "3B" = some 'B' then ["m.png"] ++ ["n.png"] else [])) ∧
      (runDriver "3B" [⟨["x.png"], [0]⟩, ⟨["y.png", "z.png"], [1, 2]⟩]
        ⟨["m.png"], [2]⟩ ⟨["n.png"], [2]⟩).2 =
        ([[0], [1, 2]].flatten ++
          (if pyLastChar "3B" = some 'B' then [2] ++ [2] else []))) :=
  ⟨⟨by decide, by decide, by decide⟩,
    driver_parallel "3B" [⟨["x.png"], [0]⟩, ⟨["y.png", "z.png"], [1, 2]⟩]
      ⟨["m.png"], [2]⟩ ⟨["n.png"], [2]⟩ (by decide) (by decide) (by decide)⟩

/-- C10: a discovered split file containing a line with fewer than two
whitespace-separated tokens (after any prefix of well-formed lines) makes
the whole verification run abort with `ValueError` at that line: no
result is produced, so the line is neither skipped nor reported as a
mismatch, and no later line or file is checked. -/
theorem short_line_aborts (out : List String) (nm : String) (pre post : List String)
    (line : String) (rest : List SplitFile)
    (hpre : ∀ l ∈ pre, 2 ≤ (lineTok l).length)
    (h : (lineTok line).length < 2) :
    checkFiles out (⟨nm, pre ++ line :: post⟩ :: rest) initAcc =
      .error "ValueError: not enough values to unpack" := by
  rw [checkFiles]
  rw [checkLines_error_of_short out pre post line initAcc hpre h]

/-- Witness for C10: a blank line after one good line aborts the run even
though further lines and split files remain. -/
theorem short_line_aborts_witness :
    ((∀ l ∈ ["a.png 1"], 2 ≤ (lineTok l).length) ∧ (lineTok "").length < 2) ∧
    checkFiles ["a.png"]
      [⟨"train_COVIDx_CT-3A.txt", ["a.png 1"] ++ "" :: ["b.png 2"]⟩,
       ⟨"val_COVIDx_CT-3A.txt", ["a.png 0"]⟩] initAcc =
      .error "ValueError: not enough values to unpack" :=
  ⟨⟨by decide, by decide⟩,
    short_line_aborts ["a.png"] "train_COVIDx_CT-3A.txt" ["a.png 1"] ["b.png 2"] ""
      [⟨"val_COVIDx_CT-3A.txt", ["a.png 0"]⟩] (by decide) (by decide)⟩
